import Mathlib

/-!
Verification of the detection dispatch and result-correlation engine of the
AutoDrone repository (`TypeFly/controller/yolo_client.py` and
`TypeFly/controller/yolo_grpc_client.py`).

The two clients keep a FIFO `frame_queue` (Python `queue.Queue`, modelled as a
`List` whose head is the queue front) of in-flight frames, a `frame_id`
counter, and an optional `shared_frame` slot (`SharedFrame`).  The async
`detect` path enqueues `(frame_id, frame)` under `frame_id_lock`, sends the
frame, and on receipt of a decoded JSON result reconciles it against the
queue front.  The local/synchronous `detect_local` path enqueues the bare
frame, performs a blocking request, and publishes to the slot.

Frames are modelled generically: `Frame φ` carries an `Option φ` image,
mirroring the `frame.image is None` checks.  The decoded JSON payload is
modelled as `Payload β`: an optional `image_id` integer plus an abstract
remainder (bounding boxes etc.) that the reconciliation logic never inspects
and only passes through to `SharedFrame.set`.
-/

namespace AutoDrone

/-- A frame as handled by the clients: `image` models `frame.image`, which the
code compares against `None` before dispatching. -/
structure Frame (φ : Type u) where
  image : Option φ
  deriving DecidableEq

/-- A decoded detection result payload (`json_results`).  `imageId` is the
`image_id` field (`none` when the key is absent); `rest` is the remainder of
the decoded JSON (the box list), which reconciliation never inspects. -/
structure Payload (β : Type v) where
  imageId : Option Int
  rest : β
  deriving DecidableEq

/-- Observable outcome of the reconcile section at the end of an async
`detect` call: nothing published, a `(frame, results)` pair published via
`SharedFrame.set`, an uncaught `IndexError` (HTTP client: front access on an
emptied queue), or an uncaught `KeyError` (gRPC client:
`json_results['image_id']` with the key absent). -/
inductive RecOutcome (α : Type u) (β : Type v) where
  | noPublish
  | published (frame : α) (results : Payload β)
  | indexError
  | keyError
  deriving DecidableEq

/-- The loop `while self.frame_queue.queue[0][0] < R: self.frame_queue.get()`
of `YoloClient.detect` (yolo_client.py line 214).  The loop condition reads
the queue front, so once the queue is emptied the next condition evaluation
raises `IndexError`; that is modelled by returning `none`.  On `some q` the
returned queue is non-empty and its front id is not `< R`. -/
def popWhileLt (R : Int) : List (Nat × α) → Option (List (Nat × α))
  | [] => none
  | (i, f) :: rest => if (i : Int) < R then popWhileLt R rest else some ((i, f) :: rest)

/-- The loop `while not self.frame_queue.empty() and self.frame_queue.queue[0][0]
< json_results['image_id']: self.frame_queue.get()` of `YoloGRPCClient.detect`
(yolo_grpc_client.py lines 100-101), which guards every front access with an
emptiness test. -/
def dropWhileLt (R : Int) : List (Nat × α) → List (Nat × α)
  | [] => []
  | (i, f) :: rest => if (i : Int) < R then dropWhileLt R rest else (i, f) :: rest

/-- Reconcile section of the async `YoloClient.detect` (yolo_client.py lines
211-221), for a queue `q` and decoded payload `p`, with `slot` recording
whether `self.shared_frame is not None`:

    if self.frame_queue.empty(): return
    while self.frame_queue.queue[0][0] < json_results.get('image_id', -1):
        self.frame_queue.get()
    if self.frame_queue.queue[0][0] > json_results.get('image_id', -1):
        return
    if self.shared_frame is not None:
        self.shared_frame.set(self.frame_queue.get()[1], json_results)

A missing `image_id` key defaults to `-1`.  When the pop loop empties the
queue, its next condition evaluation raises `IndexError` with the queue
already emptied; the envelope pop guarded by `shared_frame is not None`
happens only when a slot is attached.  Returns the queue left behind and the
observable outcome. -/
def YoloClient.reconcile (slot : Bool) (q : List (Nat × α)) (p : Payload β) :
    List (Nat × α) × RecOutcome α β :=
  if q.isEmpty then (q, .noPublish)
  else
    match popWhileLt (p.imageId.getD (-1)) q with
    | none => ([], .indexError)
    | some [] => ([], .indexError)
    | some ((i, f) :: rest) =>
      if (i : Int) > p.imageId.getD (-1) then ((i, f) :: rest, .noPublish)
      else if slot then (rest, .published f p)
      else ((i, f) :: rest, .noPublish)

/-- Reconcile section of the async `YoloGRPCClient.detect` (yolo_grpc_client.py
lines 96-108):

    if self.frame_queue.empty(): return
    while not self.frame_queue.empty() and self.frame_queue.queue[0][0] < json_results['image_id']:
        self.frame_queue.get()
    if self.frame_queue.empty() or self.frame_queue.queue[0][0] > json_results['image_id']:
        return
    if self.shared_frame is not None:
        self.shared_frame.set(self.frame_queue.get()[1], json_results)

`json_results['image_id']` raises `KeyError` when the key is absent; it is
first evaluated in the loop condition, reached only when the queue is
non-empty, before any pop.  As in the HTTP client, the matched envelope is
popped only when a slot is attached. -/
def YoloGRPCClient.reconcile (slot : Bool) (q : List (Nat × α)) (p : Payload β) :
    List (Nat × α) × RecOutcome α β :=
  if q.isEmpty then (q, .noPublish)
  else
    match p.imageId with
    | none => (q, .keyError)
    | some R =>
      match dropWhileLt R q with
      | [] => ([], .noPublish)
      | (i, f) :: rest =>
        if (i : Int) > R then ((i, f) :: rest, .noPublish)
        else if slot then (rest, .published f p)
        else ((i, f) :: rest, .noPublish)

/-- Shared async-path state of a client: the `frame_id` counter (starts at 0)
and the FIFO `frame_queue`, which on the async path holds `(image_id, frame)`
pairs; the list head is the queue front. -/
structure AsyncState (φ : Type u) where
  frame_id : Nat
  frame_queue : List (Nat × Frame φ)
  deriving DecidableEq

/-- The critical section under `frame_id_lock` shared by both async `detect`
implementations (yolo_client.py lines 185-197, yolo_grpc_client.py lines
87-90): enqueue `(frame_id, frame)`, build the request carrying
`image_id = frame_id`, and increment `frame_id`, as one atomic step.  Returns
the assigned id and the new state. -/
def dispatchStep (s : AsyncState φ) (f : Frame φ) : Nat × AsyncState φ :=
  (s.frame_id, ⟨s.frame_id + 1, s.frame_queue ++ [(s.frame_id, f)]⟩)

/-- A sequence of async dispatches: runs `dispatchStep` on each frame in
order, returning the assigned ids in dispatch order and the final state. -/
def dispatchRun (s : AsyncState φ) : List (Frame φ) → List Nat × AsyncState φ
  | [] => ([], s)
  | f :: fs =>
    let p := dispatchStep s f
    let r := dispatchRun p.2 fs
    (p.1 :: r.1, r.2)

/-- What the transport hands back to one async `detect` call: the send raised
or timed out, the response body failed to decode as JSON, or a decoded
payload. -/
inductive Response (β : Type v) where
  | transportFail
  | decodeFail
  | ok (p : Payload β)
  deriving DecidableEq

/-- Observable outcome of one async `YoloClient.detect` call.  `noImage`: the
`frame.image is None` early return.  `raisedRuntime`: the aiohttp request
failed, the `get_aiohttp_session_response` context manager caught and logged
the exception and finished without yielding, so the `async with` in `detect`
raises `RuntimeError` (the `if response is None` check is unreachable).
`decodeErrorLogged`: `json.loads` raised `json.JSONDecodeError`, which
`detect` catches, logs and turns into an early return.  `reconciled o`: the
reconcile section ran with outcome `o`. -/
inductive DetectOutcome (φ : Type u) (β : Type v) where
  | noImage
  | raisedRuntime
  | decodeErrorLogged
  | reconciled (o : RecOutcome (Frame φ) β)
  deriving DecidableEq

/-- The async path of `YoloClient.detect` (yolo_client.py lines 168-221), as a
state transformer on `AsyncState` given the transport's response for this
call: check `frame.image`, dispatch under the lock, send (the response is the
`resp` argument), then decode and reconcile.  The transport-failure and
decode-failure paths leave the state exactly as the dispatch step left it. -/
def YoloClient.detect (slot : Bool) (s : AsyncState φ) (f : Frame φ)
    (resp : Response β) : AsyncState φ × DetectOutcome φ β :=
  match f.image with
  | none => (s, .noImage)
  | some _ =>
    let s1 := (dispatchStep s f).2
    match resp with
    | .transportFail => (s1, .raisedRuntime)
    | .decodeFail => (s1, .decodeErrorLogged)
    | .ok p =>
      let r := YoloClient.reconcile slot s1.frame_queue p
      (⟨s1.frame_id, r.1⟩, .reconciled r.2)

/-- State of a client on the local/synchronous path: the `frame_id` counter
and the FIFO `frame_queue`, which on this path holds bare frames
(`self.frame_queue.put(frame)`). -/
structure LocalState (φ : Type u) where
  frame_id : Nat
  frame_queue : List (Frame φ)
  deriving DecidableEq

/-- Result of one `detect_local` call: the state left behind, the `image_id`
value carried by the request sent for this call (`none` when nothing was
sent; the gRPC `DetectStream` request carries no `image_id` at all), and the
`(frame, results)` pair passed to `SharedFrame.set`, if any. -/
structure LocalCall (φ : Type u) (β : Type v) where
  state : LocalState φ
  sentImageId : Option Nat
  published : Option (Frame φ × Payload β)
  deriving DecidableEq

/-- `YoloClient.detect_local` (yolo_client.py lines 108-148), given the
transport's response (`none` models any exception raised by `requests.post`
or `json.loads`; the whole body is wrapped in `try/except Exception`, which
logs and returns, so no error reaches the caller).  The frame is enqueued
before the blocking request; the config sent carries
`image_id = self.frame_id`; on success, if a slot is attached,
`self.shared_frame.set(self.frame_queue.get(), json_results)` pops the queue
FRONT (not necessarily this call's frame) and publishes it; `frame_id` is
incremented only when everything before it succeeded. -/
def YoloClient.detect_local (slot : Bool) (s : LocalState φ) (f : Frame φ)
    (resp : Option (Payload β)) : LocalCall φ β :=
  match f.image with
  | none => ⟨s, none, none⟩
  | some _ =>
    match resp with
    | none => ⟨⟨s.frame_id, s.frame_queue ++ [f]⟩, some s.frame_id, none⟩
    | some p =>
      if slot then
        match s.frame_queue with
        | [] => ⟨⟨s.frame_id + 1, []⟩, some s.frame_id, some (f, p)⟩
        | g :: rest => ⟨⟨s.frame_id + 1, rest ++ [f]⟩, some s.frame_id, some (g, p)⟩
      else ⟨⟨s.frame_id + 1, s.frame_queue ++ [f]⟩, some s.frame_id, none⟩

/-- Whether a `detect_local` call completed normally or let an exception
escape to its caller (the gRPC `detect_local` has no `try/except`, so stub
and decode errors propagate; the HTTP one catches everything). -/
inductive LocalOutcome where
  | completed
  | raised
  deriving DecidableEq

/-- `YoloGRPCClient.detect_local` (yolo_grpc_client.py lines 58-71): enqueue
the frame, send `DetectRequest(image_data, conf)` — no `image_id` — through
the blocking stub; on success, if a slot is attached and the queue is
non-empty (it always is, the frame was just enqueued), pop the queue front
and publish it.  `frame_id` is never touched.  There is no `try/except`:
transport and decode errors propagate to the caller with the frame left
enqueued. -/
def YoloGRPCClient.detect_local (slot : Bool) (s : LocalState φ) (f : Frame φ)
    (resp : Option (Payload β)) : LocalCall φ β × LocalOutcome :=
  match f.image with
  | none => (⟨s, none, none⟩, .completed)
  | some _ =>
    match resp with
    | none => (⟨⟨s.frame_id, s.frame_queue ++ [f]⟩, none, none⟩, .raised)
    | some p =>
      if slot then
        match s.frame_queue with
        | [] => (⟨⟨s.frame_id, []⟩, none, some (f, p)⟩, .completed)
        | g :: rest => (⟨⟨s.frame_id, rest ++ [f]⟩, none, some (g, p)⟩, .completed)
      else (⟨⟨s.frame_id, s.frame_queue ++ [f]⟩, none, none⟩, .completed)

/-- If every queued id is below `R`, the HTTP pop loop empties the queue and
its next condition evaluation hits the empty queue. -/
theorem popWhileLt_eq_none (R : Int) :
    ∀ q : List (Nat × α), (∀ e ∈ q, (e.1 : Int) < R) → popWhileLt R q = none
  | [], _ => rfl
  | (i, f) :: rest, h => by
    have hi : (i : Int) < R := h (i, f) (List.mem_cons_self _ _)
    simp only [popWhileLt, if_pos hi]
    exact popWhileLt_eq_none R rest fun e he => h e (List.mem_cons_of_mem _ he)

/-- When the HTTP pop loop stops normally, the queue left is a suffix of the
input: the input splits into a dropped prefix, every element of which has id
below `R`, followed by the remaining queue, whose front id is not below `R`. -/
theorem popWhileLt_some (R : Int) :
    ∀ (q qq : List (Nat × α)), popWhileLt R q = some qq →
      ∃ pre, q = pre ++ qq ∧ (∀ e ∈ pre, (e.1 : Int) < R) ∧
        ∃ i f rest, qq = (i, f) :: rest ∧ ¬ (i : Int) < R
  | [], qq, h => by simp [popWhileLt] at h
  | (i, f) :: rest, qq, h => by
    by_cases hi : (i : Int) < R
    · simp only [popWhileLt, if_pos hi] at h
      obtain ⟨pre, h1, h2, h3⟩ := popWhileLt_some R rest qq h
      refine ⟨(i, f) :: pre, by simp [h1], ?_, h3⟩
      intro e he
      rcases List.mem_cons.mp he with he | he
      · rw [he]; exact hi
      · exact h2 e he
    · simp only [popWhileLt, if_neg hi] at h
      have hq := Option.some.inj h
      exact ⟨[], by simp [hq], by simp, i, f, rest, hq.symm, hi⟩

/-- The queue a successful HTTP pop loop leaves behind is a suffix of the
input queue. -/
theorem popWhileLt_suffix (R : Int) (q qq : List (Nat × α))
    (h : popWhileLt R q = some qq) : qq <:+ q := by
  obtain ⟨pre, h1, -⟩ := popWhileLt_some R q qq h
  exact ⟨pre, h1.symm⟩

/-- If every queued id is below `R`, the guarded gRPC pop loop empties the
queue and stops cleanly. -/
theorem dropWhileLt_eq_nil (R : Int) :
    ∀ q : List (Nat × α), (∀ e ∈ q, (e.1 : Int) < R) → dropWhileLt R q = []
  | [], _ => rfl
  | (i, f) :: rest, h => by
    have hi : (i : Int) < R := h (i, f) (List.mem_cons_self _ _)
    simp only [dropWhileLt, if_pos hi]
    exact dropWhileLt_eq_nil R rest fun e he => h e (List.mem_cons_of_mem _ he)

/-- On inputs where the HTTP pop loop stops normally, the guarded gRPC pop
loop computes the same remaining queue. -/
theorem dropWhileLt_eq_of_pop (R : Int) :
    ∀ (q qq : List (Nat × α)), popWhileLt R q = some qq → dropWhileLt R q = qq
  | [], _, h => by simp [popWhileLt] at h
  | (i, f) :: rest, qq, h => by
    by_cases hi : (i : Int) < R
    · simp only [popWhileLt, if_pos hi] at h
      simp only [dropWhileLt, if_pos hi]
      exact dropWhileLt_eq_of_pop R rest qq h
    · simp only [popWhileLt, if_neg hi] at h
      simp only [dropWhileLt, if_neg hi]
      exact Option.some.inj h

/-- The gRPC pop loop drops a prefix of ids below `R` and keeps the rest. -/
theorem dropWhileLt_decomp (R : Int) :
    ∀ q : List (Nat × α),
      ∃ pre, q = pre ++ dropWhileLt R q ∧ (∀ e ∈ pre, (e.1 : Int) < R) ∧
        (∀ i f rest, dropWhileLt R q = (i, f) :: rest → ¬ (i : Int) < R)
  | [] => ⟨[], by simp [dropWhileLt]⟩
  | (i, f) :: rest => by
    by_cases hi : (i : Int) < R
    · simp only [dropWhileLt, if_pos hi]
      obtain ⟨pre, h1, h2, h3⟩ := dropWhileLt_decomp R rest
      refine ⟨(i, f) :: pre, by simp [← h1], ?_, ?_⟩
      · intro e he
        rcases List.mem_cons.mp he with he | he
        · rw [he]; exact hi
        · exact h2 e he
      · intro j g rr h
        exact h3 j g rr h
    · simp only [dropWhileLt, if_neg hi]
      refine ⟨[], by simp, by simp, ?_⟩
      intro j g rr h
      have := (List.cons.injEq _ _ _ _).mp h
      have hj : j = i := by
        have := this.1
        exact (Prod.mk.injEq _ _ _ _).mp this |>.1 |>.symm
      rw [hj]
      exact hi

/-- The queue left behind by the HTTP reconcile step is always a suffix of
the input queue (also on the `IndexError` path, which leaves it empty). -/
theorem YoloClient.reconcile_suffix (slot : Bool) (q : List (Nat × α))
    (p : Payload β) : (YoloClient.reconcile slot q p).1 <:+ q := by
  by_cases hq : q.isEmpty
  · simp [YoloClient.reconcile, hq]
  · rcases hpop : popWhileLt (p.imageId.getD (-1)) q with - | qq
    · simp [YoloClient.reconcile, hq, hpop]
    · rcases qq with - | ⟨⟨i, f⟩, rest⟩
      · simp [YoloClient.reconcile, hq, hpop]
      · have hsuf : (i, f) :: rest <:+ q := popWhileLt_suffix _ _ _ hpop
        have htail : rest <:+ q := List.IsSuffix.trans ⟨[(i, f)], rfl⟩ hsuf
        by_cases hgt : (i : Int) > p.imageId.getD (-1)
        · simpa [YoloClient.reconcile, hq, hpop, hgt] using hsuf
        · cases slot
          · simpa [YoloClient.reconcile, hq, hpop, hgt] using hsuf
          · simpa [YoloClient.reconcile, hq, hpop, hgt] using htail

/-- Claim C10: in the HTTP client's async reconcile step, a decoded payload
lacking an `image_id` key defaults to `-1` via `json_results.get('image_id', -1)`;
every queued id is a natural number, so the pop loop removes nothing, the
front-id-greater branch discards the result silently, and the queue is left
unchanged, for every non-empty queue state. -/
theorem c10_missing_image_id (slot : Bool) (q : List (Nat × α)) (b : β)
    (h : q ≠ []) :
    YoloClient.reconcile slot q (⟨none, b⟩ : Payload β) = (q, .noPublish) := by
  match q, h with
  | (i, f) :: rest, _ =>
    have hnotlt : ¬ ((i : Int) < -1) := by
      have : (0 : Int) ≤ (i : Int) := Int.natCast_nonneg i
      omega
    have hgt : (i : Int) > -1 := by
      have : (0 : Int) ≤ (i : Int) := Int.natCast_nonneg i
      omega
    simp [YoloClient.reconcile, popWhileLt, hnotlt, hgt]

/-- Witness for C10 at the concrete non-empty queue `[(3, 5)]`. -/
theorem c10_witness :
    YoloClient.reconcile true [(3, (5 : Nat))] (⟨none, ()⟩ : Payload Unit)
      = ([(3, 5)], .noPublish) :=
  c10_missing_image_id true [(3, (5 : Nat))] () (by decide)

/-- Claim C5: the concrete out-of-order scenario.  Frames with ids 0 and 1 are
in flight and the result with `image_id = 1` arrives first: the reconcile step
pops and discards envelope 0 without publishing, then matches envelope 1 and
publishes its frame with result 1, leaving the queue empty; the result with
`image_id = 0` arriving afterwards finds the queue empty and is discarded with
no match and no error.  This holds in both the HTTP and the gRPC client (slot
attached). -/
theorem c5_out_of_order_scenario :
    (YoloClient.reconcile true
        [(0, (⟨some 10⟩ : Frame Nat)), (1, ⟨some 11⟩)] (⟨some 1, ()⟩ : Payload Unit)
      = ([], .published ⟨some 11⟩ ⟨some 1, ()⟩)) ∧
    (YoloClient.reconcile true
        ([] : List (Nat × Frame Nat)) (⟨some 0, ()⟩ : Payload Unit)
      = ([], .noPublish)) ∧
    (YoloGRPCClient.reconcile true
        [(0, (⟨some 10⟩ : Frame Nat)), (1, ⟨some 11⟩)] (⟨some 1, ()⟩ : Payload Unit)
      = ([], .published ⟨some 11⟩ ⟨some 1, ()⟩)) ∧
    (YoloGRPCClient.reconcile true
        ([] : List (Nat × Frame Nat)) (⟨some 0, ()⟩ : Payload Unit)
      = ([], .noPublish)) := by
  refine ⟨?_, ?_, ?_, ?_⟩ <;> decide

/-- Running `dispatchStep` over a list of frames from an arbitrary state:
the assigned ids are consecutive from the starting counter, and the queue
gains the frames tagged with those ids, in order. -/
theorem dispatchRun_eq (fs : List (Frame φ)) :
    ∀ (n : Nat) (q : List (Nat × Frame φ)),
      dispatchRun (⟨n, q⟩ : AsyncState φ) fs
        = (List.range' n fs.length,
           ⟨n + fs.length, q ++ (List.range' n fs.length).zip fs⟩) := by
  induction fs with
  | nil => intro n q; simp [dispatchRun]
  | cons f fs ih =>
    intro n q
    simp only [dispatchRun, dispatchStep]
    rw [ih (n + 1) (q ++ [(n, f)])]
    simp only [List.length_cons, List.range'_succ, List.zip_cons_cons,
      Prod.mk.injEq, AsyncState.mk.injEq, List.append_assoc, List.singleton_append,
      and_true, true_and]
    omega

/-- Claim C3: for every sequence of N dispatches through the asynchronous
path on a fresh engine (`frame_id = 0`, empty queue), the assigned
SequenceIds are exactly `0..N-1` in dispatch order, with no gaps and no
repeats (`List.range N`), and the envelopes in the in-flight queue are the
dispatched frames paired with those ids in ascending assigned-id order; id
assignment and enqueue are one atomic step (`dispatchStep`, the body of the
`frame_id_lock` critical section). -/
theorem c3_sequence_ids (fs : List (Frame φ)) :
    (dispatchRun (⟨0, []⟩ : AsyncState φ) fs).1 = List.range fs.length ∧
    (dispatchRun (⟨0, []⟩ : AsyncState φ) fs).2.frame_queue
      = (List.range fs.length).zip fs ∧
    (dispatchRun (⟨0, []⟩ : AsyncState φ) fs).2.frame_id = fs.length := by
  rw [dispatchRun_eq fs 0 []]
  refine ⟨by simp [List.range_eq_range'], by simp [List.range_eq_range'], by simp⟩

/-- Claim C1 counterexample: queue `[(0, frame)]`, arriving result with
`image_id = 1` — strictly greater than every queued id.  The claim says the
HTTP reconcile step discards everything and terminates without error; in
fact its unguarded pop loop empties the queue and the next front access
raises an uncaught `IndexError`. -/
theorem c1_counterexample :
    YoloClient.reconcile true [(0, (⟨some 10⟩ : Frame Nat))]
        (⟨some 1, ()⟩ : Payload Unit)
      = ([], .indexError) := by decide

/-- Claim C1 (amended): when a result arrives whose `image_id` is strictly
greater than every queued id, the gRPC reconcile step pops and discards all
queued envelopes, discards the result without publishing, and terminates
without error with an empty queue; the HTTP reconcile step does the same
discarding but, whenever the queue was non-empty, raises an uncaught
`IndexError` from the front access of its unguarded pop loop (the queue is
left empty either way). -/
theorem c1_amended (slot : Bool) (q : List (Nat × α)) (R : Int) (b : β)
    (hall : ∀ e ∈ q, (e.1 : Int) < R) :
    YoloGRPCClient.reconcile slot q (⟨some R, b⟩ : Payload β)
        = ([], .noPublish) ∧
    (q ≠ [] →
      YoloClient.reconcile slot q (⟨some R, b⟩ : Payload β)
        = ([], .indexError)) := by
  constructor
  · match q, hall with
    | [], _ => rfl
    | e :: rest, hall =>
      have hdrop : dropWhileLt R (e :: rest) = [] := dropWhileLt_eq_nil R _ hall
      simp [YoloGRPCClient.reconcile, hdrop]
  · intro hne
    match q, hne, hall with
    | e :: rest, _, hall =>
      have hpop : popWhileLt R (e :: rest) = none := popWhileLt_eq_none R _ hall
      simp [YoloClient.reconcile, hpop]

/-- Witness for C1 (amended) at queue `[(0, 5)]` and result id 1. -/
theorem c1_witness :
    (YoloGRPCClient.reconcile true [(0, (5 : Nat))] (⟨some 1, ()⟩ : Payload Unit)
        = ([], .noPublish)) ∧
    (YoloClient.reconcile true [(0, (5 : Nat))] (⟨some 1, ()⟩ : Payload Unit)
        = ([], .indexError)) := by
  have h := c1_amended true [(0, (5 : Nat))] 1 () (by decide)
  exact ⟨h.1, h.2 (by decide)⟩

/-- Claim C2 counterexample: one successful HTTP `detect_local` call (no slot
attached) from the fresh state performs a queue insertion (queue goes from
`[]` to `[frame]`) and increments `frame_id` from 0 to 1, refuting "no queue
insertion, no queue removal, and no counter increment". -/
theorem c2_counterexample :
    YoloClient.detect_local false (⟨0, []⟩ : LocalState Nat) ⟨some 5⟩
        (some (⟨some 0, ()⟩ : Payload Unit))
      = ⟨⟨1, [⟨some 5⟩]⟩, some 0, none⟩ := by decide

/-- Claim C2 (amended): the local/synchronous path does touch both the queue
and the counter.  HTTP `detect_local`: the frame is enqueued before the
request; on failure it stays enqueued and `frame_id` is unchanged; on
success `frame_id` is incremented, and exactly when a slot is attached the
queue FRONT is popped and published.  gRPC `detect_local`: same queue
behavior, but `frame_id` is never touched. -/
theorem c2_amended (x : φ) (n : Nat) (q : List (Frame φ)) (g : Frame φ)
    (rest : List (Frame φ)) (p : Payload β) :
    (∀ slot, YoloClient.detect_local slot (⟨n, q⟩ : LocalState φ) ⟨some x⟩
        (none : Option (Payload β))
      = ⟨⟨n, q ++ [⟨some x⟩]⟩, some n, none⟩) ∧
    (YoloClient.detect_local true (⟨n, g :: rest⟩ : LocalState φ) ⟨some x⟩ (some p)
      = ⟨⟨n + 1, rest ++ [⟨some x⟩]⟩, some n, some (g, p)⟩) ∧
    (YoloClient.detect_local true (⟨n, []⟩ : LocalState φ) ⟨some x⟩ (some p)
      = ⟨⟨n + 1, []⟩, some n, some (⟨some x⟩, p)⟩) ∧
    (YoloClient.detect_local false (⟨n, q⟩ : LocalState φ) ⟨some x⟩ (some p)
      = ⟨⟨n + 1, q ++ [⟨some x⟩]⟩, some n, none⟩) ∧
    (∀ slot, YoloGRPCClient.detect_local slot (⟨n, q⟩ : LocalState φ) ⟨some x⟩
        (none : Option (Payload β))
      = (⟨⟨n, q ++ [⟨some x⟩]⟩, none, none⟩, .raised)) ∧
    (YoloGRPCClient.detect_local true (⟨n, g :: rest⟩ : LocalState φ) ⟨some x⟩ (some p)
      = (⟨⟨n, rest ++ [⟨some x⟩]⟩, none, some (g, p)⟩, .completed)) ∧
    (YoloGRPCClient.detect_local true (⟨n, []⟩ : LocalState φ) ⟨some x⟩ (some p)
      = (⟨⟨n, []⟩, none, some (⟨some x⟩, p)⟩, .completed)) ∧
    (YoloGRPCClient.detect_local false (⟨n, q⟩ : LocalState φ) ⟨some x⟩ (some p)
      = (⟨⟨n, q ++ [⟨some x⟩]⟩, none, none⟩, .completed)) := by
  refine ⟨fun slot => rfl, rfl, rfl, rfl, fun slot => rfl, rfl, rfl, rfl⟩

/-- Claim C4 counterexample: queue `[(0, frame)]`, matching result with
`image_id = 0`, no slot attached.  The claim says the matched envelope is
popped whether or not a slot is attached; in fact the pop sits inside
`if self.shared_frame is not None:` in both clients, so without a slot the
envelope stays queued. -/
theorem c4_counterexample :
    (YoloClient.reconcile false [(0, (7 : Nat))] (⟨some 0, ()⟩ : Payload Unit)
      = ([(0, 7)], .noPublish)) ∧
    (YoloGRPCClient.reconcile false [(0, (7 : Nat))] (⟨some 0, ()⟩ : Payload Unit)
      = ([(0, 7)], .noPublish)) := by decide

/-- Claim C4 (amended): in both clients, when after the discard-older pop
loop the front envelope's id equals the result's `image_id`: with a slot
attached the envelope is popped and its frame published with the result;
with no slot attached nothing is popped — the matched envelope remains at
the queue front — and no publication occurs; neither case errors. -/
theorem c4_amended (q : List (Nat × α)) (R : Int) (b : β)
    (i : Nat) (f : α) (rest : List (Nat × α)) :
    (popWhileLt R q = some ((i, f) :: rest) → (i : Int) = R →
      YoloClient.reconcile true q (⟨some R, b⟩ : Payload β)
          = (rest, .published f ⟨some R, b⟩) ∧
      YoloClient.reconcile false q (⟨some R, b⟩ : Payload β)
          = ((i, f) :: rest, .noPublish)) ∧
    (dropWhileLt R q = (i, f) :: rest → (i : Int) = R →
      YoloGRPCClient.reconcile true q (⟨some R, b⟩ : Payload β)
          = (rest, .published f ⟨some R, b⟩) ∧
      YoloGRPCClient.reconcile false q (⟨some R, b⟩ : Payload β)
          = ((i, f) :: rest, .noPublish)) := by
  constructor
  · intro hpop hi
    match q, hpop with
    | e :: q2, hpop =>
      have hgt : ¬ ((i : Int) > R) := by rw [hi]; omega
      constructor <;> simp [YoloClient.reconcile, hpop, hgt]
  · intro hdrop hi
    match q, hdrop with
    | e :: q2, hdrop =>
      have hgt : ¬ ((i : Int) > R) := by rw [hi]; omega
      constructor <;> simp [YoloGRPCClient.reconcile, hdrop, hgt]

/-- Witness for C4 (amended) at queue `[(0, 7)]` and result id 0: with a slot
the envelope is popped and published, without one it stays queued. -/
theorem c4_witness :
    (YoloClient.reconcile true [(0, (7 : Nat))] (⟨some 0, ()⟩ : Payload Unit)
        = ([], .published 7 ⟨some 0, ()⟩) ∧
     YoloClient.reconcile false [(0, (7 : Nat))] (⟨some 0, ()⟩ : Payload Unit)
        = ([(0, 7)], .noPublish)) ∧
    (YoloGRPCClient.reconcile true [(0, (7 : Nat))] (⟨some 0, ()⟩ : Payload Unit)
        = ([], .published 7 ⟨some 0, ()⟩) ∧
     YoloGRPCClient.reconcile false [(0, (7 : Nat))] (⟨some 0, ()⟩ : Payload Unit)
        = ([(0, 7)], .noPublish)) := by
  have h := c4_amended [(0, (7 : Nat))] 0 () 0 7 []
  exact ⟨h.1 (by decide) (by decide), h.2 (by decide) (by decide)⟩

/-- If the HTTP pop loop raised `IndexError`, every queued id was below `R`
(everything was popped before the failing front access). -/
theorem popWhileLt_none_all (R : Int) :
    ∀ q : List (Nat × α), popWhileLt R q = none → ∀ e ∈ q, (e.1 : Int) < R
  | [], _, e, he => absurd he (List.not_mem_nil e)
  | (i, f) :: rest, h, e, he => by
    by_cases hi : (i : Int) < R
    · simp only [popWhileLt, if_pos hi] at h
      rcases List.mem_cons.mp he with he | he
      · rw [he]; exact hi
      · exact popWhileLt_none_all R rest h e he
    · simp only [popWhileLt, if_neg hi] at h
      exact Option.noConfusion h

/-- The front of the queue a successful HTTP pop loop leaves has an id not
below `R` (the loop condition just failed on it). -/
theorem popWhileLt_front (R : Int) :
    ∀ (q rest : List (Nat × α)) (i : Nat) (f : α),
      popWhileLt R q = some ((i, f) :: rest) → ¬ (i : Int) < R
  | [], _, _, _, h => by simp [popWhileLt] at h
  | (j, g) :: q2, rest, i, f, h => by
    by_cases hj : (j : Int) < R
    · simp only [popWhileLt, if_pos hj] at h
      exact popWhileLt_front R q2 rest i f h
    · simp only [popWhileLt, if_neg hj] at h
      have hinj := Option.some.inj h
      have hji : j = i := by
        have h1 := (List.cons.injEq _ _ _ _).mp hinj
        exact ((Prod.mk.injEq _ _ _ _).mp h1.1).1
      rw [← hji]; exact hj

/-- Claim C6 counterexample, on the HTTP local path with a slot attached and
the service echoing back the `image_id` sent with each request.  Call 1
(frame 20): the transport fails, the exception is caught and logged, and
frame 20 stays queued with `frame_id` still 0.  Call 2 (frame 21): the config
sent carries `image_id = 0` — so 0 is the SequenceId assigned to frame 21 —
and the echoed result (`image_id = 0`) is published with popped frame 20.
Call 3 (frame 22): sends `image_id = 1`, and `SharedFrame.set` is called with
frame 21 and the result whose `image_id` is 1, although frame 21 was
dispatched with id 0: the slot now holds a frame/result pair that were not
matched together. -/
theorem c6_counterexample :
    ((YoloClient.detect_local true (⟨0, []⟩ : LocalState Nat) ⟨some 20⟩
        (none : Option (Payload Unit))).state = ⟨0, [⟨some 20⟩]⟩) ∧
    (YoloClient.detect_local true (⟨0, [⟨some 20⟩]⟩ : LocalState Nat) ⟨some 21⟩
        (some (⟨some 0, ()⟩ : Payload Unit))
      = ⟨⟨1, [⟨some 21⟩]⟩, some 0, some (⟨some 20⟩, ⟨some 0, ()⟩)⟩) ∧
    (YoloClient.detect_local true (⟨1, [⟨some 21⟩]⟩ : LocalState Nat) ⟨some 22⟩
        (some (⟨some 1, ()⟩ : Payload Unit))
      = ⟨⟨2, [⟨some 22⟩]⟩, some 1, some (⟨some 21⟩, ⟨some 1, ()⟩)⟩) := by
  refine ⟨rfl, rfl, rfl⟩

/-- Claim C6 (amended): every publication performed by the async reconcile
step of either client pairs a frame with the result actually produced for
it: if `(f, results)` is published, then `results` is the received payload,
and the queue held the envelope `(i, f)` for the very `i` that equals the
payload's `image_id` (which in particular is present).  On the local path
this pairing can be violated — see the counterexample — because envelopes
left behind by failed calls shift which frame `SharedFrame.set` receives. -/
theorem c6_amended (slot : Bool) (q qq : List (Nat × α)) (p : Payload β)
    (f : α) (pp : Payload β) :
    (YoloClient.reconcile slot q p = (qq, .published f pp) →
      pp = p ∧ ∃ i : Nat, (i, f) ∈ q ∧ p.imageId = some (i : Int)) ∧
    (YoloGRPCClient.reconcile slot q p = (qq, .published f pp) →
      pp = p ∧ ∃ i : Nat, (i, f) ∈ q ∧ p.imageId = some (i : Int)) := by
  constructor
  · intro h
    by_cases hq : q.isEmpty
    · simp [YoloClient.reconcile, hq] at h
    · rcases hpop : popWhileLt (p.imageId.getD (-1)) q with - | (- | ⟨⟨i, g⟩, rest⟩)
      · simp [YoloClient.reconcile, hq, hpop] at h
      · simp [YoloClient.reconcile, hq, hpop] at h
      · by_cases hgt : (i : Int) > p.imageId.getD (-1)
        · simp [YoloClient.reconcile, hq, hpop, hgt] at h
        · cases slot with
          | false => simp [YoloClient.reconcile, hq, hpop, hgt] at h
          | true =>
            simp [YoloClient.reconcile, hq, hpop, hgt] at h
            obtain ⟨-, hf, hp⟩ := h
            have hfront := popWhileLt_front _ q rest i g hpop
            have hmem : (i, g) ∈ q :=
              (popWhileLt_suffix _ q _ hpop).subset (List.mem_cons_self _ _)
            have hR : (i : Int) = p.imageId.getD (-1) := by omega
            have himg : p.imageId = some (i : Int) := by
              rcases hio : p.imageId with - | v
              · rw [hio] at hR
                simp only [Option.getD_none] at hR
                omega
              · rw [hio] at hR
                simp only [Option.getD_some] at hR
                rw [hR]
            exact ⟨hp.symm, i, by rw [← hf]; exact hmem, himg⟩
  · intro h
    by_cases hq : q.isEmpty
    · simp [YoloGRPCClient.reconcile, hq] at h
    · rcases hio : p.imageId with - | R
      · simp [YoloGRPCClient.reconcile, hq, hio] at h
      · rcases hdrop : dropWhileLt R q with - | ⟨⟨i, g⟩, rest⟩
        · simp [YoloGRPCClient.reconcile, hq, hio, hdrop] at h
        · by_cases hgt : (i : Int) > R
          · simp [YoloGRPCClient.reconcile, hq, hio, hdrop, hgt] at h
          · cases slot with
            | false => simp [YoloGRPCClient.reconcile, hq, hio, hdrop, hgt] at h
            | true =>
              simp [YoloGRPCClient.reconcile, hq, hio, hdrop, hgt] at h
              obtain ⟨-, hf, hp⟩ := h
              obtain ⟨pre, hdec, -, hfront⟩ := dropWhileLt_decomp R q
              have hfr := hfront i g rest hdrop
              have hmem : (i, g) ∈ q := by
                rw [hdec, hdrop]
                exact List.mem_append_right pre (List.mem_cons_self _ _)
              have hR : (i : Int) = R := by omega
              exact ⟨hp.symm, i, by rw [← hf]; exact hmem, by rw [hR]⟩

/-- Witness for C6 (amended) at queue `[(0, 7)]` and a result with
`image_id = 0`, which the HTTP reconcile publishes with frame 7. -/
theorem c6_witness :
    (⟨some 0, ()⟩ : Payload Unit) = ⟨some 0, ()⟩ ∧
    ∃ i : Nat, (i, (7 : Nat)) ∈ [(0, 7)] ∧
      (⟨some 0, ()⟩ : Payload Unit).imageId = some (i : Int) :=
  (c6_amended true [(0, (7 : Nat))] [] (⟨some 0, ()⟩ : Payload Unit) 7
    ⟨some 0, ()⟩).1 (by decide)

/-- Claim C7: a dispatch whose transport send fails or times out removes
nothing from the in-flight queue.  First conjunct: the transport-failure path
of the async HTTP `detect` leaves the state exactly as the dispatch step left
it — this call's envelope is still queued at the back (it then surfaces as
the `RuntimeError` of the `async with`).  Second conjunct: any envelope that
a later reconcile step removes from the queue was removed either by the
discard-while-older pop loop — so only when a result with a strictly higher
`image_id` arrived — or as the published match of a result carrying exactly
its own id, which a failed send never produces. -/
theorem c7_failure_keeps_envelope (slot : Bool) (s : AsyncState φ) (x : φ)
    (q : List (Nat × α)) (p : Payload β) (e : Nat × α) :
    (YoloClient.detect slot s (⟨some x⟩ : Frame φ)
        (Response.transportFail : Response β)
      = (⟨s.frame_id + 1, s.frame_queue ++ [(s.frame_id, ⟨some x⟩)]⟩,
         .raisedRuntime)) ∧
    (e ∈ q → e ∉ (YoloClient.reconcile slot q p).1 →
      ((e.1 : Int) < p.imageId.getD (-1) ∨
        (YoloClient.reconcile slot q p).2 = .published e.2 p)) := by
  refine ⟨rfl, ?_⟩
  intro hmem hrem
  by_cases hq : q.isEmpty
  · rw [show (YoloClient.reconcile slot q p).1 = q by simp [YoloClient.reconcile, hq]]
      at hrem
    exact absurd hmem hrem
  · rcases hpop : popWhileLt (p.imageId.getD (-1)) q with - | (- | ⟨⟨i, g⟩, rest⟩)
    · exact Or.inl (popWhileLt_none_all _ q hpop e hmem)
    · obtain ⟨-, -, -, i, g, r2, habs, -⟩ := popWhileLt_some _ q _ hpop
      exact absurd habs (by simp)
    · obtain ⟨pre, hdec, hpre, -⟩ := popWhileLt_some _ q _ hpop
      by_cases hgt : (i : Int) > p.imageId.getD (-1)
      · rw [show (YoloClient.reconcile slot q p).1 = (i, g) :: rest by
            simp [YoloClient.reconcile, hq, hpop, hgt]] at hrem
        rw [hdec] at hmem
        rcases List.mem_append.mp hmem with hm | hm
        · exact Or.inl (hpre e hm)
        · exact absurd hm hrem
      · cases slot with
        | false =>
          rw [show (YoloClient.reconcile false q p).1 = (i, g) :: rest by
              simp [YoloClient.reconcile, hq, hpop, hgt]] at hrem
          rw [hdec] at hmem
          rcases List.mem_append.mp hmem with hm | hm
          · exact Or.inl (hpre e hm)
          · exact absurd hm hrem
        | true =>
          rw [show (YoloClient.reconcile true q p).1 = rest by
              simp [YoloClient.reconcile, hq, hpop, hgt]] at hrem
          rw [hdec] at hmem
          rcases List.mem_append.mp hmem with hm | hm
          · exact Or.inl (hpre e hm)
          · rcases List.mem_cons.mp hm with hm | hm
            · refine Or.inr ?_
              rw [show (YoloClient.reconcile true q p).2 = .published g p by
                  simp [YoloClient.reconcile, hq, hpop, hgt]]
              rw [hm]
            · exact absurd hm hrem

/-- Witness for C7 at the concrete state `frame_id = 2`, queue `[(0, 9)]`,
frame 5, and — for the reconcile part — queue `[(0, 9)]` with a result of
`image_id = 1`, whose pop loop removes envelope `(0, 9)`. -/
theorem c7_witness :
    (YoloClient.detect true (⟨2, [(0, ⟨some 9⟩)]⟩ : AsyncState Nat) ⟨some 5⟩
        (Response.transportFail : Response Unit)
      = (⟨3, [(0, ⟨some 9⟩), (2, ⟨some 5⟩)]⟩, .raisedRuntime)) ∧
    (((0, (9 : Nat)).1 : Int) < (⟨some 1, ()⟩ : Payload Unit).imageId.getD (-1) ∨
      (YoloClient.reconcile true [(0, (9 : Nat))] (⟨some 1, ()⟩ : Payload Unit)).2
        = .published (0, (9 : Nat)).2 ⟨some 1, ()⟩) := by
  have h := c7_failure_keeps_envelope true (⟨2, [(0, ⟨some 9⟩)]⟩ : AsyncState Nat)
    (5 : Nat) [(0, (9 : Nat))] (⟨some 1, ()⟩ : Payload Unit) (0, (9 : Nat))
  exact ⟨h.1, h.2 (by decide) (by decide)⟩

/-- Strictly ascending envelope ids from queue front to back. -/
def queueSorted (q : List (Nat × α)) : Prop :=
  q.Pairwise (fun a b => a.1 < b.1)

/-- Queue invariant of the async path: ids strictly increase from front to
back and all lie below the `frame_id` counter. -/
def asyncInv (s : AsyncState φ) : Prop :=
  queueSorted s.frame_queue ∧ ∀ e ∈ s.frame_queue, e.1 < s.frame_id

/-- Claim C8 counterexample, on the HTTP local path (slot attached).  Call 1
(frame 20) hits a transport error: the `except` swallows it, so the caller
of that `detect` invocation receives no error, and frame 20 stays queued.
Call 2 (frame 21) hits no error at all, yet `SharedFrame.set` receives frame
20 — the first call's error changed which pair another call publishes, so
the error was neither reported to its caller nor contained in its own
invocation. -/
theorem c8_counterexample :
    ((YoloClient.detect_local true (⟨0, []⟩ : LocalState Nat) ⟨some 20⟩
        (none : Option (Payload Unit))).state = ⟨0, [⟨some 20⟩]⟩) ∧
    ((YoloClient.detect_local true (⟨0, [⟨some 20⟩]⟩ : LocalState Nat) ⟨some 21⟩
        (some (⟨some 0, ()⟩ : Payload Unit))).published
      = some (⟨some 20⟩, ⟨some 0, ()⟩)) := by
  refine ⟨rfl, rfl⟩

/-- Claim C8 (amended): on the async HTTP path, a transport failure or a
decode failure terminates only that invocation (with the distinct outcomes
`raisedRuntime` / `decodeErrorLogged`) and leaves the state exactly as the
dispatch step left it — only this call's own envelope was appended, nothing
was removed or reordered; and every response, errors included, preserves the
queue invariant (strictly ascending ids, all below the counter), so no error
corrupts the queue that other in-flight calls reconcile against.  On the
HTTP local path, by contrast, errors are swallowed by the `except` ­— logged,
not reported — and leave the frame queued with no cleanup (counterexample). -/
theorem c8_amended (slot : Bool) (s : AsyncState φ) (x : φ) (resp : Response β) :
    (YoloClient.detect slot s (⟨some x⟩ : Frame φ)
        (Response.transportFail : Response β)
      = (⟨s.frame_id + 1, s.frame_queue ++ [(s.frame_id, ⟨some x⟩)]⟩,
         .raisedRuntime)) ∧
    (YoloClient.detect slot s (⟨some x⟩ : Frame φ)
        (Response.decodeFail : Response β)
      = (⟨s.frame_id + 1, s.frame_queue ++ [(s.frame_id, ⟨some x⟩)]⟩,
         .decodeErrorLogged)) ∧
    (asyncInv s → asyncInv (YoloClient.detect slot s (⟨some x⟩ : Frame φ) resp).1) := by
  refine ⟨rfl, rfl, ?_⟩
  intro hinv
  obtain ⟨hsort, hbound⟩ := hinv
  have hdisp : asyncInv
      (⟨s.frame_id + 1, s.frame_queue ++ [(s.frame_id, (⟨some x⟩ : Frame φ))]⟩ :
        AsyncState φ) := by
    constructor
    · rw [queueSorted, List.pairwise_append]
      refine ⟨hsort, List.pairwise_singleton _ _, ?_⟩
      intro a ha b hb
      have hb2 : b = (s.frame_id, (⟨some x⟩ : Frame φ)) := by simpa using hb
      rw [hb2]
      exact hbound a ha
    · intro e he
      rcases List.mem_append.mp he with he | he
      · exact Nat.lt_succ_of_lt (hbound e he)
      · have he2 : e = (s.frame_id, (⟨some x⟩ : Frame φ)) := by simpa using he
        rw [he2]
        exact Nat.lt_succ_self _
  cases resp with
  | transportFail => exact hdisp
  | decodeFail => exact hdisp
  | ok p =>
    obtain ⟨hs1, hb1⟩ := hdisp
    have hsuf := YoloClient.reconcile_suffix slot
      (s.frame_queue ++ [(s.frame_id, (⟨some x⟩ : Frame φ))]) p
    have hsub := hsuf.sublist
    exact ⟨hs1.sublist hsub, fun e he => hb1 e (hsub.subset he)⟩

/-- Witness for C8 (amended): concrete state `frame_id = 1`, queue
`[(0, 9)]`, invariant discharged, with a successful response of id 1. -/
theorem c8_witness :
    (YoloClient.detect true (⟨1, [(0, ⟨some 9⟩)]⟩ : AsyncState Nat) ⟨some 5⟩
        (Response.transportFail : Response Unit)
      = (⟨2, [(0, ⟨some 9⟩), (1, ⟨some 5⟩)]⟩, .raisedRuntime)) ∧
    (YoloClient.detect true (⟨1, [(0, ⟨some 9⟩)]⟩ : AsyncState Nat) ⟨some 5⟩
        (Response.decodeFail : Response Unit)
      = (⟨2, [(0, ⟨some 9⟩), (1, ⟨some 5⟩)]⟩, .decodeErrorLogged)) ∧
    asyncInv ((YoloClient.detect true (⟨1, [(0, ⟨some 9⟩)]⟩ : AsyncState Nat)
        ⟨some 5⟩ (Response.ok (⟨some 1, ()⟩ : Payload Unit))).1) := by
  have h := c8_amended true (⟨1, [(0, ⟨some 9⟩)]⟩ : AsyncState Nat) (5 : Nat)
    (Response.ok (⟨some 1, ()⟩ : Payload Unit))
  exact ⟨h.1, h.2.1, h.2.2 ⟨by unfold queueSorted; decide, by decide⟩⟩

/-- Claim C9 counterexample: queue `[(0, frame)]` and a received result with
`image_id = 1`.  The HTTP reconcile raises `IndexError` after emptying the
queue; the gRPC reconcile discards everything and returns cleanly — the two
reconciliation steps are not identical. -/
theorem c9_counterexample :
    YoloClient.reconcile true [(0, (0 : Nat))] (⟨some 1, ()⟩ : Payload Unit)
      ≠ YoloGRPCClient.reconcile true [(0, (0 : Nat))] (⟨some 1, ()⟩ : Payload Unit) := by
  decide

/-- Claim C9 (amended): the two reconcile steps agree — same envelopes
removed, same discard/match decision, same publication — on every queue
state and every result whose `image_id` is present, whenever the HTTP step
does not raise `IndexError` (i.e. unless the id exceeds every queued id of a
non-empty queue); they further differ when `image_id` is absent, where the
HTTP step defaults it to `-1` and discards the result while the gRPC step
raises `KeyError` on a non-empty queue. -/
theorem c9_amended (slot : Bool) (q : List (Nat × α)) (R : Int) (b : β)
    (h : (YoloClient.reconcile slot q (⟨some R, b⟩ : Payload β)).2
      ≠ RecOutcome.indexError) :
    YoloGRPCClient.reconcile slot q (⟨some R, b⟩ : Payload β)
      = YoloClient.reconcile slot q (⟨some R, b⟩ : Payload β) := by
  by_cases hq : q.isEmpty
  · simp [YoloClient.reconcile, YoloGRPCClient.reconcile, hq]
  · rcases hpop : popWhileLt R q with - | qq
    · exfalso
      apply h
      simp [YoloClient.reconcile, hq, hpop]
    · obtain ⟨-, -, -, i, f, rest, hqq, -⟩ := popWhileLt_some R q qq hpop
      subst hqq
      have hdrop := dropWhileLt_eq_of_pop R q _ hpop
      by_cases hgt : (i : Int) > R
      · simp [YoloClient.reconcile, YoloGRPCClient.reconcile, hq, hpop, hdrop, hgt]
      · cases slot <;>
          simp [YoloClient.reconcile, YoloGRPCClient.reconcile, hq, hpop, hdrop, hgt]

/-- Witness for C9 (amended) at queue `[(0, 7), (1, 8)]` and result id 1:
both clients pop envelope 0, match envelope 1 and publish it. -/
theorem c9_witness :
    YoloGRPCClient.reconcile true [(0, (7 : Nat)), (1, 8)]
        (⟨some 1, ()⟩ : Payload Unit)
      = YoloClient.reconcile true [(0, (7 : Nat)), (1, 8)]
        (⟨some 1, ()⟩ : Payload Unit) :=
  c9_amended true [(0, (7 : Nat)), (1, 8)] 1 () (by decide)

end AutoDrone
